import Mathlib

/-!
Shallow embedding of the game-console host firmware
(repository NB6RULES/Nadec-Biju-Fabacademy-Files, main sketch source).

Conventions used throughout:
* `millis()` timestamps are modelled as `Nat`.  The firmware stores them in
  `uint32_t` and only ever forms differences `now - earlier` where `now` is a
  later reading of the monotone clock, so natural-number subtraction agrees
  with the `uint32_t` arithmetic on every reachable state.
* `uint8_t` casts that can truncate are modelled with `% 256` at the point of
  the cast.
* Hardware writes (`tone`, `noTone`, `digitalWrite`, pixel flushes) have no
  effect on the modelled state; the externally visible tone starts are
  recovered by an instrumented trace runner (`runSound`).
-/

/-- One queued buzzer event, mirroring `struct ToneEvent { uint16_t freq;
uint16_t duration; }`. -/
structure ToneEvent where
  freq : Nat
  duration : Nat
deriving DecidableEq, Repr

/-- `constexpr uint8_t TONE_QUEUE_SIZE = 24;` -/
def TONE_QUEUE_SIZE : Nat := 24

/-- The global sound-system state of the sketch: the circular tone queue
(`toneQueue`, `toneHead`, `toneTail`), the currently-sounding-tone bookkeeping
(`toneActive`, `toneEndTime`) and the mute flag (`soundMuted`).  The 24-entry
array `toneQueue` is modelled as a total function; the firmware only ever
indexes it with values `% TONE_QUEUE_SIZE`. -/
structure SoundState where
  queue : Nat → ToneEvent
  toneHead : Nat
  toneTail : Nat
  toneActive : Bool
  toneEndTime : Nat
  soundMuted : Bool

/-- `void enqueueTone(uint16_t freq, uint16_t duration)`: drop when muted,
drop when advancing the tail would collide with the head (queue full),
otherwise store at the tail and advance it. -/
def enqueueTone (s : SoundState) (freq duration : Nat) : SoundState :=
  if s.soundMuted then s
  else
    let nextTail := (s.toneTail + 1) % TONE_QUEUE_SIZE
    if nextTail = s.toneHead then s
    else
      { s with
        queue := fun i => if i = s.toneTail then ⟨freq, duration⟩ else s.queue i,
        toneTail := nextTail }

/-- `void updateSound(uint32_t now)`: while muted, silence the buzzer and
discard the queue (`toneHead = toneTail`); otherwise stop an expired tone,
then, if idle and the queue is non-empty, dequeue the oldest event and start
it until `now + duration`. -/
def updateSound (now : Nat) (s : SoundState) : SoundState :=
  if s.soundMuted then
    { s with toneActive := false, toneHead := s.toneTail }
  else
    let s1 := if s.toneActive ∧ s.toneEndTime ≤ now then { s with toneActive := false } else s
    if ¬s1.toneActive ∧ s1.toneHead ≠ s1.toneTail then
      let ev := s1.queue s1.toneHead
      { s1 with
        toneHead := (s1.toneHead + 1) % TONE_QUEUE_SIZE,
        toneActive := true,
        toneEndTime := now + ev.duration }
    else s1

/-- `void setSoundMuted(bool muted)`: record the flag; when muting, also
silence the buzzer and reset both queue indices to zero. -/
def setSoundMuted (muted : Bool) (s : SoundState) : SoundState :=
  if muted then
    { s with soundMuted := true, toneActive := false, toneHead := 0, toneTail := 0 }
  else
    { s with soundMuted := false }

/-- Number of occupied slots of the circular queue, as observed through the
head and tail indices. -/
def occupancy (s : SoundState) : Nat :=
  (s.toneTail + TONE_QUEUE_SIZE - s.toneHead) % TONE_QUEUE_SIZE

/-- The queued events in dequeue order: `occupancy` many entries starting at
the head index and wrapping modulo the capacity. -/
def pendingList (s : SoundState) : List ToneEvent :=
  (List.range (occupancy s)).map fun i => s.queue ((s.toneHead + i) % TONE_QUEUE_SIZE)

/-- Sound effect helpers of the sketch (each is a fixed `enqueueTone` chain). -/
def beepButton (s : SoundState) : SoundState := enqueueTone s 1200 26

/-- `beepScore()`. -/
def beepScore (s : SoundState) : SoundState := enqueueTone s 1600 35

/-- `beepHit()`. -/
def beepHit (s : SoundState) : SoundState := enqueueTone s 240 90

/-- `beepStart()`. -/
def beepStart (s : SoundState) : SoundState :=
  enqueueTone (enqueueTone (enqueueTone s 500 45) 850 45) 1200 65

/-- `beepLose()`. -/
def beepLose (s : SoundState) : SoundState :=
  enqueueTone (enqueueTone (enqueueTone s 1000 60) 700 70) 430 90

/-- `beepWin()`. -/
def beepWin (s : SoundState) : SoundState :=
  enqueueTone (enqueueTone (enqueueTone s 800 50) 1050 50) 1400 80

/-- Boot-time sound state: every index variable and flag is zero-initialised. -/
def initSound : SoundState :=
  { queue := fun _ => ⟨0, 0⟩, toneHead := 0, toneTail := 0,
    toneActive := false, toneEndTime := 0, soundMuted := false }

/-- `constexpr uint16_t BTN_DEBOUNCE_MS = 30;` -/
def BTN_DEBOUNCE_MS : Nat := 30

/-- `enum ButtonId : uint8_t { B_UP, B_DOWN, B_LEFT, B_RIGHT, B_PAUSE,
B_SELECT, BUTTON_COUNT };` -/
inductive ButtonId where
  | B_UP
  | B_DOWN
  | B_LEFT
  | B_RIGHT
  | B_PAUSE
  | B_SELECT
deriving DecidableEq, Repr

open ButtonId

/-- `struct Button { uint8_t pin; bool stable; bool last; bool press;
bool release; uint32_t changedAt; };` -/
structure Button where
  pin : Nat
  stable : Bool
  last : Bool
  press : Bool
  release : Bool
  changedAt : Nat
deriving DecidableEq, Repr

/-- The loop body of `updateButtons(uint32_t now)` for one button, with the
`digitalRead(...) == LOW` result passed in as `raw`: a raw-level change
records the time and the new raw level; a raw level that has sat for at least
the debounce window and differs from the stable level is committed and raises
exactly the matching edge flag. -/
def updateButton (now : Nat) (raw : Bool) (b : Button) : Button :=
  let b := if raw ≠ b.last then { b with last := raw, changedAt := now } else b
  if BTN_DEBOUNCE_MS ≤ now - b.changedAt ∧ raw ≠ b.stable then
    if raw then { b with stable := raw, press := true }
    else { b with stable := raw, release := true }
  else b

/-- `updateButtons` applied to the whole button array: each button is updated
independently from its own raw line. -/
def updateButtonsAll (raws : ButtonId → Bool) (now : Nat) (bs : ButtonId → Button) :
    ButtonId → Button :=
  fun i => updateButton now (raws i) (bs i)

/-- `void clearButtonEdges()`: both edge flags of every button are cleared. -/
def clearButtonEdges (bs : ButtonId → Button) : ButtonId → Button :=
  fun i => { bs i with press := false, release := false }

/-- `bool isDown(ButtonId id)` (called `down` in the earlier revision):
reports the debounced stable level without consuming anything. -/
def isDown (bs : ButtonId → Button) (i : ButtonId) : Bool :=
  (bs i).stable

/-- Folding `updateButton` over a sample trace of `(now, raw)` pairs — the
effect of consecutive `updateButtons` calls on one button. -/
def runButton (b : Button) (samples : List (Nat × Bool)) : Button :=
  samples.foldl (fun b p => updateButton p.1 p.2 b) b

/-- `enum SystemState : uint8_t { STATE_MENU, STATE_PLAYING, STATE_GAME_OVER };` -/
inductive SystemState where
  | menu
  | playing
  | gameOver
deriving DecidableEq, Repr

/-- `enum GameId : uint8_t { ... GAME_COUNT };` — 18 concrete games; the enum
values are exactly 0..17, so the id is modelled as `Fin 18`. -/
abbrev GameId := Fin 18

/-- `GAME_COUNT`. -/
def GAME_COUNT : Nat := 18

/-- `static_cast<GameId>(menuIndex)`: the menu index is kept inside
`[0, GAME_COUNT)` by the wrap-around arithmetic of the menu handlers, so the
cast is the canonical embedding. -/
def toGameId (n : Nat) : GameId := ⟨n % 18, Nat.mod_lt _ (by omega)⟩

/-- `Timing::GAME_OVER_DELAY_MS`. -/
def GAME_OVER_DELAY_MS : Nat := 2000

/-- `Timing::MATRIX_FRAME_MS`. -/
def MATRIX_FRAME_MS : Nat := 33

/-- `Timing::OLED_FRAME_MS`. -/
def OLED_FRAME_MS : Nat := 100

/-- The global session state of the sketch: the button array, the sound
system, and every session-level global (`systemState`, `currentGame`,
`menuIndex`, `score`, `highScore[GAME_COUNT]`, `lastWin`, `lastMsg`,
`gamePaused`, `menuMuteComboLatched`, `gameOverStartTime`, `lastMatrixMs`,
`lastOledMs`).  The frame buffer and the OLED contents are pure outputs and
are not part of the modelled state; the per-game union `gameState` is the
module-private overlay behind the GameModule seam and is likewise outside the
session state. -/
structure Sys where
  buttons : ButtonId → Button
  sound : SoundState
  systemState : SystemState
  currentGame : GameId
  menuIndex : Nat
  score : Int
  highScore : GameId → Int
  lastWin : Bool
  lastMsg : String
  gamePaused : Bool
  menuMuteComboLatched : Bool
  gameOverStartTime : Nat
  lastMatrixMs : Nat
  lastOledMs : Nat

/-- `bool takePress(ButtonId id)`: report and consume the press edge.  The
returned pair is (result, state after the call). -/
def takePress (i : ButtonId) (s : Sys) : Bool × Sys :=
  if (s.buttons i).press then
    (true, { s with buttons := Function.update s.buttons i { s.buttons i with press := false } })
  else
    (false, s)

/-- `void returnToMenu()`. -/
def returnToMenu (s : Sys) : Sys :=
  { s with systemState := SystemState.menu, gamePaused := false,
           menuMuteComboLatched := false, buttons := clearButtonEdges s.buttons }

/-- `void finishGame(bool win, const char *message)`.  `now` stands for the
`millis()` call recording `gameOverStartTime`; the nullable C string is an
`Option String`, and the bounded `strncpy` into `char lastMsg[24]` is
truncation to 23 characters. -/
def finishGame (now : Nat) (win : Bool) (message : Option String) (s : Sys) : Sys :=
  if s.systemState ≠ SystemState.playing then s
  else
    { s with
      highScore :=
        if s.highScore s.currentGame < s.score then
          Function.update s.highScore s.currentGame s.score
        else s.highScore,
      lastWin := win,
      lastMsg :=
        (match message with
         | some m => m
         | none => if win then "Win" else "Game over").take 23,
      systemState := SystemState.gameOver,
      gameOverStartTime := now,
      buttons := clearButtonEdges s.buttons,
      sound := if win then beepWin s.sound else beepLose s.sound }

/-- `void startGame(GameId id)`.  `initGame(id)` writes only into the
module-private `gameState` union, which lies outside the session state, so it
contributes nothing here. -/
def startGame (id : GameId) (s : Sys) : Sys :=
  { s with
    currentGame := id,
    score := 0,
    lastWin := false,
    gamePaused := false,
    menuMuteComboLatched := false,
    lastMsg := "Game over",
    systemState := SystemState.playing,
    buttons := clearButtonEdges s.buttons,
    sound := beepStart s.sound }

/-- `void snakeUpdate(uint32_t now)`, with everything after its pause
prologue (direction input, movement, food, collisions — the module-private
game logic operating on `gameState.snake`) abstracted as `advanceRest`.  The
prologue is translated verbatim: a pause press toggles `gamePaused` and beeps;
if `gamePaused` is then set the function returns at once, otherwise the rest
of the update runs. -/
def snakeUpdate (advanceRest : Nat → Sys → Sys) (now : Nat) (s : Sys) : Sys :=
  let t := takePress B_PAUSE s
  let s := if t.1 then { t.2 with gamePaused := !t.2.gamePaused, sound := beepButton t.2.sound }
           else t.2
  if s.gamePaused then s else advanceRest now s

/-- The pause flag as it stands right after `snakeUpdate`'s pause-input
processing (the value the `if (gamePaused) return;` guard tests). -/
def pausedAfterInput (s : Sys) : Bool :=
  if (s.buttons B_PAUSE).press then !s.gamePaused else s.gamePaused

/-- The LEFT+RIGHT mute-combo handling at the top of the `STATE_MENU`
branch of `loop()`: when both lines are held and the latch is clear, toggle
`soundMuted` via `setSoundMuted`, beep if the toggle unmuted, set the latch
and clear every edge; when the combo is not held, release the latch. -/
def menuMuteComboStep (s : Sys) : Sys :=
  let muteComboDown := isDown s.buttons B_LEFT ∧ isDown s.buttons B_RIGHT
  let s :=
    if muteComboDown ∧ ¬s.menuMuteComboLatched then
      let s := { s with sound := setSoundMuted (!s.sound.soundMuted) s.sound }
      let s := if ¬s.sound.soundMuted then { s with sound := beepButton s.sound } else s
      { s with menuMuteComboLatched := true, buttons := clearButtonEdges s.buttons }
    else s
  if ¬muteComboDown then { s with menuMuteComboLatched := false } else s

/-- One menu-navigation handler of the `STATE_MENU` branch:
`if (takePress(j)) { menuIndex = (menuIndex + delta) % GAME_COUNT;
beepButton(); }` — `delta` is `GAME_COUNT - 1` for UP (wrap to the bottom)
and `1` for DOWN (wrap to the top). -/
def menuNavOne (j : ButtonId) (delta : Nat) (s : Sys) : Sys :=
  let t := takePress j s
  if t.1 then
    { t.2 with menuIndex := (t.2.menuIndex + delta) % GAME_COUNT,
               sound := beepButton t.2.sound }
  else t.2

/-- Menu navigation: UP then DOWN. -/
def menuNavStep (s : Sys) : Sys :=
  menuNavOne B_DOWN 1 (menuNavOne B_UP (GAME_COUNT - 1) s)

/-- The menu start handler: `if (takePress(B_PAUSE)) { beepButton();
startGame(static_cast<GameId>(menuIndex)); }`. -/
def menuStartStep (s : Sys) : Sys :=
  let t := takePress B_PAUSE s
  if t.1 then startGame (toGameId t.2.menuIndex) { t.2 with sound := beepButton t.2.sound }
  else t.2

/-- The `STATE_MENU` branch of `loop()`: the mute combo, then UP/DOWN menu
navigation with wrap-around, then PAUSE starting the selected game. -/
def menuStep (s : Sys) : Sys :=
  menuStartStep (menuNavStep (menuMuteComboStep s))

/-- The `STATE_GAME_OVER` branch of `loop()`:
`if ((now - gameOverStartTime >= GAME_OVER_DELAY_MS) || takePress(B_PAUSE)
|| takePress(B_SELECT)) { beepButton(); returnToMenu(); }` with the `||`
short-circuit evaluation (and hence the edge consumption) reproduced
exactly. -/
def gameOverStep (now : Nat) (s : Sys) : Sys :=
  if GAME_OVER_DELAY_MS ≤ now - s.gameOverStartTime then
    returnToMenu { s with sound := beepButton s.sound }
  else
    let t := takePress B_PAUSE s
    if t.1 then returnToMenu { t.2 with sound := beepButton t.2.sound }
    else
      let t' := takePress B_SELECT t.2
      if t'.1 then returnToMenu { t'.2 with sound := beepButton t'.2.sound }
      else t'.2

/-- One iteration of `void loop()` (session-controller part).  `raws` gives
each button's `digitalRead(...) == LOW` result for this tick and `now` the
single `millis()` reading.  In order: `updateButtons(now)`; the global
`if (takePress(B_SELECT) && systemState != STATE_MENU)` cancel (note the
`&&` short-circuit: `takePress` runs, and consumes the edge, first); the
state dispatch — `menuStep`, the active module's update through the
GameModule seam `updateGameFn` (`updateGame(currentGame, now)` in the
sketch), or `gameOverStep`; `updateSound(now)`; and the two render-cadence
checks.  Drawing writes only the frame buffer / OLED, so of the render
branches only the two cadence timestamps appear here. -/
def loopTick (updateGameFn : GameId → Nat → Sys → Sys) (raws : ButtonId → Bool)
    (now : Nat) (s : Sys) : Sys :=
  let s := { s with buttons := updateButtonsAll raws now s.buttons }
  let t := takePress B_SELECT s
  let s := if t.1 ∧ t.2.systemState ≠ SystemState.menu then
             returnToMenu { t.2 with sound := beepButton t.2.sound }
           else t.2
  let s :=
    if s.systemState = SystemState.menu then menuStep s
    else if s.systemState = SystemState.playing then updateGameFn s.currentGame now s
    else gameOverStep now s
  let s := { s with sound := updateSound now s.sound }
  let s := if MATRIX_FRAME_MS ≤ now - s.lastMatrixMs then { s with lastMatrixMs := now } else s
  if OLED_FRAME_MS ≤ now - s.lastOledMs then { s with lastOledMs := now } else s

/-- `constexpr uint8_t MATRIX_W = 8;` -/
def MATRIX_W : Nat := 8

/-- `constexpr uint8_t MATRIX_H = 8;` -/
def MATRIX_H : Nat := 8

/-- `uint8_t ledIndex(uint8_t x, uint8_t y)`: the serpentine mapping used by
the frame path — even rows left-to-right, odd rows right-to-left.  The
`static_cast<uint8_t>` of each arm is the `% 256` truncation. -/
def ledIndex (x y : Nat) : Nat :=
  if y % 2 = 0 then (y * MATRIX_W + x) % 256
  else (y * MATRIX_W + (MATRIX_W - 1 - x)) % 256

/-- `void setPixel(int8_t x, int8_t y, uint32_t color)`: out-of-bounds writes
are ignored; in-bounds writes land at the serpentine physical index. -/
def setPixel (x y : Int) (color : Nat) (frame : Nat → Nat) : Nat → Nat :=
  if x < 0 ∨ (MATRIX_W : Int) ≤ x ∨ y < 0 ∨ (MATRIX_H : Int) ≤ y then frame
  else fun i => if i = ledIndex x.toNat y.toNat then color else frame i

/-- `void showFrame()`: the sequence of physical pixel values flushed to the
LED strip, in strip order. -/
def showFrame (frame : Nat → Nat) : List Nat :=
  (List.range (MATRIX_W * MATRIX_H)).map frame

/-- A call made against the sound subsystem: an `enqueueTone(freq, duration)`
call or an `updateSound(now)` pump from the main loop. -/
inductive SoundOp where
  | enq (freq duration : Nat)
  | pump (now : Nat)
deriving DecidableEq, Repr

/-- Whether an `enqueueTone` call on state `s` actually stores its event:
not muted and the queue not full. -/
def enqAccepts (s : SoundState) : Bool :=
  !s.soundMuted && decide ((s.toneTail + 1) % TONE_QUEUE_SIZE ≠ s.toneHead)

/-- Whether an `updateSound(now)` call on state `s` starts a tone on the
buzzer: not muted, idle after the expiry check, and a non-empty queue. -/
def pumpStarts (now : Nat) (s : SoundState) : Bool :=
  !s.soundMuted &&
  !(if s.toneActive ∧ s.toneEndTime ≤ now then false else s.toneActive) &&
  decide (s.toneHead ≠ s.toneTail)

/-- One sound call, instrumented: alongside the state it accumulates the list
of events `enqueueTone` accepted and the list of events `updateSound` started
on the buzzer, each in call order. -/
def soundStep (t : SoundState × List ToneEvent × List ToneEvent) (op : SoundOp) :
    SoundState × List ToneEvent × List ToneEvent :=
  match op with
  | SoundOp.enq f d =>
      (enqueueTone t.1 f d,
       t.2.1 ++ (if enqAccepts t.1 then [⟨f, d⟩] else []),
       t.2.2)
  | SoundOp.pump now =>
      (updateSound now t.1,
       t.2.1,
       t.2.2 ++ (if pumpStarts now t.1 then [t.1.queue t.1.toneHead] else []))

/-- Run a sequence of sound calls from the boot state, instrumented. -/
def runSound (ops : List SoundOp) : SoundState × List ToneEvent × List ToneEvent :=
  ops.foldl soundStep (initSound, [], [])

/-- Invariant tying the instrumented sound trace to the circular buffer:
the system stays unmuted, both indices stay inside the array, and the
accepted events are exactly the started events followed by the still-pending
ones. -/
def SoundInv (t : SoundState × List ToneEvent × List ToneEvent) : Prop :=
  t.1.soundMuted = false ∧ t.1.toneHead < 24 ∧ t.1.toneTail < 24 ∧
    t.2.1 = t.2.2 ++ pendingList t.1



/-- Per-step admissibility of a sample trace for one button: each sample
either is itself a raw-level transition (which restamps `changedAt`, so the
commit guard `now - changedAt >= BTN_DEBOUNCE_MS` compares against `now`
itself), or arrives within the debounce window of the last recorded raw
change.  This is the "consecutive transitions spaced less than the debounce
window apart" condition, stated against the evolving `changedAt` stamp. -/
def bouncy : Button → List (Nat × Bool) → Bool
  | _, [] => true
  | b, (t, r) :: rest =>
      ((r != b.last) || decide (t - b.changedAt < BTN_DEBOUNCE_MS)) &&
        bouncy (updateButton t r b) rest

/-- Button state established by `initButtons()` for an inactive line at
time 0. -/
def bootButton : Button :=
  { pin := 0, stable := false, last := false, press := false, release := false,
    changedAt := 0 }

/-- The spec scenario: a raw level that flips repeatedly with every sample
within the 30 ms debounce window of the last change. -/
def bounceSamples : List (Nat × Bool) :=
  [(5, true), (10, false), (12, true), (20, false), (25, false)]

/-- A clean press (committed after 30 ms of stable high) followed by a clean
release, with no reader consuming the edges in between. -/
def pressReleaseSamples : List (Nat × Bool) :=
  [(0, true), (30, true), (31, false), (61, false)]

/-- Raw-input vector: no button line active. -/
def rawsOff : ButtonId → Bool := fun _ => false

/-- Raw-input vector: only the UP line active. -/
def rawsUp : ButtonId → Bool := fun i => decide (i = B_UP)

/-- Trivial GameModule seam: a module update that changes nothing. -/
def noGame : GameId → Nat → Sys → Sys := fun _ _ s => s

/-- Detector for the GameModule seam: a module body that bumps the score,
making an invocation of the module's advance observable. -/
def bumpScore : Nat → Sys → Sys := fun _ s => { s with score := s.score + 1 }

/-- A concrete boot-like session state (Menu, everything zeroed). -/
def sysBase : Sys :=
  { buttons := fun _ => bootButton, sound := initSound,
    systemState := SystemState.menu, currentGame := ⟨0, by omega⟩,
    menuIndex := 0, score := 0, highScore := fun _ => 0, lastWin := false,
    lastMsg := "Game over", gamePaused := false, menuMuteComboLatched := false,
    gameOverStartTime := 0, lastMatrixMs := 0, lastOledMs := 0 }

/-- A game-over session state entered at time 0, no pending input. -/
def sysGameOverEx : Sys := { sysBase with systemState := SystemState.gameOver }

/-- A game-over session state with a pending SELECT press edge. -/
def sysGameOverSelEx : Sys :=
  { sysBase with
    systemState := SystemState.gameOver,
    buttons := fun i => if i = B_SELECT then { bootButton with press := true } else bootButton }

/-- A paused Playing state with a pending PAUSE press edge (the unpause
tick about to happen). -/
def sysPausedEx : Sys :=
  { sysBase with
    systemState := SystemState.playing, gamePaused := true,
    buttons := fun i => if i = B_PAUSE then { bootButton with press := true } else bootButton }

/-- A paused Playing state with no pending input. -/
def sysPausedIdleEx : Sys :=
  { sysBase with systemState := SystemState.playing, gamePaused := true }

/-- The spec scenario for round finish: Playing with current score 50 and
stored high scores 30. -/
def sysPlayingEx : Sys :=
  { sysBase with
    systemState := SystemState.playing, score := 50,
    highScore := fun _ => 30 }

/-- Four loop iterations in the game-over state before the timeout: the UP
line goes high at t=0, is committed at t=30 (press edge), goes low at t=31
and the release is committed at t=61 — with no reader consuming UP edges in
the game-over state. -/
def c6state : Sys :=
  loopTick noGame rawsOff 61
    (loopTick noGame rawsOff 31
      (loopTick noGame rawsUp 30
        (loopTick noGame rawsUp 0 sysGameOverEx)))

/-- A sound state whose queue holds 23 events (the capacity bound). -/
def fullQueueEx : SoundState := { initSound with toneTail := 23 }

/-- An idle sound state with one queued event. -/
def idleQueuedEx : SoundState :=
  { initSound with queue := fun _ => ⟨440, 50⟩, toneTail := 1 }

/-- A concrete call sequence against the sound subsystem. -/
def opsFifoEx : List SoundOp :=
  [SoundOp.enq 440 50, SoundOp.pump 0, SoundOp.enq 660 30, SoundOp.pump 100,
   SoundOp.enq 880 40]

/-- A rejected `enqueueTone` call (muted or full queue) is the identity. -/
theorem enqueueTone_rejected (s : SoundState) (f d : Nat)
    (h : enqAccepts s = false) : enqueueTone s f d = s := by
  unfold enqAccepts at h
  unfold enqueueTone
  rcases hm : s.soundMuted with _ | _
  · simp [hm] at h ⊢
    simp [h]
  · simp [hm]

/-- An accepted `enqueueTone` call appends its event to the pending list. -/
theorem pendingList_enqueueTone (s : SoundState) (f d : Nat)
    (hh : s.toneHead < 24) (ht : s.toneTail < 24)
    (h : enqAccepts s = true) :
    pendingList (enqueueTone s f d) = pendingList s ++ [⟨f, d⟩] := by
  unfold enqAccepts at h
  simp only [Bool.and_eq_true, Bool.not_eq_true', decide_eq_true_eq, TONE_QUEUE_SIZE] at h
  obtain ⟨hm, hf⟩ := h
  have hq : enqueueTone s f d =
      { s with
        queue := fun i => if i = s.toneTail then ⟨f, d⟩ else s.queue i,
        toneTail := (s.toneTail + 1) % 24 } := by
    unfold enqueueTone
    simp [hm, hf, TONE_QUEUE_SIZE]
  rw [hq]
  unfold pendingList occupancy
  simp only [TONE_QUEUE_SIZE]
  have hocc : ((s.toneTail + 1) % 24 + 24 - s.toneHead) % 24
      = (s.toneTail + 24 - s.toneHead) % 24 + 1 := by omega
  rw [hocc, List.range_succ, List.map_append]
  congr 1
  · apply List.map_congr_left
    intro i hi
    rw [List.mem_range] at hi
    have hne : (s.toneHead + i) % 24 ≠ s.toneTail := by omega
    simp [hne]
  · have hat : (s.toneHead + (s.toneTail + 24 - s.toneHead) % 24) % 24 = s.toneTail := by
      omega
    simp [hat]

/-- States agreeing on queue, head and tail have the same pending list. -/
theorem pendingList_congr (s s' : SoundState) (hq : s'.queue = s.queue)
    (hh : s'.toneHead = s.toneHead) (ht : s'.toneTail = s.toneTail) :
    pendingList s' = pendingList s := by
  simp [pendingList, occupancy, hq, hh, ht]

/-- Dequeuing decomposes the pending list: head element first, then the
pending list of the advanced-head state. -/
theorem pendingList_dequeue (s : SoundState)
    (hh : s.toneHead < 24) (ht : s.toneTail < 24) (hne : s.toneHead ≠ s.toneTail) :
    pendingList s =
      s.queue s.toneHead ::
        pendingList { s with toneHead := (s.toneHead + 1) % 24 } := by
  unfold pendingList occupancy
  simp only [TONE_QUEUE_SIZE]
  have hocc : (s.toneTail + 24 - s.toneHead) % 24
      = (s.toneTail + 24 - (s.toneHead + 1) % 24) % 24 + 1 := by omega
  rw [hocc, List.range_succ_eq_map, List.map_cons, List.map_map]
  congr 1
  · have h0 : (s.toneHead + 0) % 24 = s.toneHead := by omega
    rw [h0]
  · apply List.map_congr_left
    intro i hi
    simp only [Function.comp_apply]
    have hstep : (s.toneHead + Nat.succ i) % 24 = ((s.toneHead + 1) % 24 + i) % 24 := by
      rw [Nat.mod_add_mod]
      congr 1
      omega
    rw [hstep]

/-- When `updateSound` does not start a tone (and is not muted), the queue
array and both indices are unchanged. -/
theorem updateSound_noStart_eq (now : Nat) (s : SoundState)
    (hm : s.soundMuted = false) (h : pumpStarts now s = false) :
    (updateSound now s).queue = s.queue ∧
    (updateSound now s).toneHead = s.toneHead ∧
    (updateSound now s).toneTail = s.toneTail := by
  by_cases hstop : s.toneActive ∧ s.toneEndTime ≤ now
  · have hht : s.toneHead = s.toneTail := by
      simp only [pumpStarts, hm, hstop, if_true, Bool.not_false, Bool.not_true,
        Bool.true_and, Bool.false_and, Bool.and_eq_false_iff, decide_eq_false_iff_not,
        not_not] at h
      rcases h with h | h
      · cases h
      · exact h
    simp [updateSound, hm, hstop, hht]
  · rcases ha : s.toneActive with _ | _
    · have hht : s.toneHead = s.toneTail := by
        simp only [pumpStarts, hm, hstop, if_false, ha, Bool.not_false, Bool.true_and,
          Bool.and_eq_false_iff, decide_eq_false_iff_not, not_not] at h
        rcases h with h | h
        · cases h
        · exact h
      simp [updateSound, hm, hstop, ha, hht]
    · have hnow : ¬ s.toneEndTime ≤ now := fun hc => hstop ⟨ha, hc⟩
      simp [updateSound, hm, ha, hnow]

/-- When `updateSound` starts a tone, the head advances by one slot and the
queue array and tail are unchanged. -/
theorem updateSound_start_eq (now : Nat) (s : SoundState)
    (h : pumpStarts now s = true) :
    (updateSound now s).queue = s.queue ∧
    (updateSound now s).toneHead = (s.toneHead + 1) % 24 ∧
    (updateSound now s).toneTail = s.toneTail := by
  have hm : s.soundMuted = false := by
    rcases hm : s.soundMuted with _ | _
    · rfl
    · simp [pumpStarts, hm] at h
  simp only [pumpStarts, hm, Bool.not_false, Bool.true_and, Bool.and_eq_true,
    Bool.not_eq_true', decide_eq_true_eq] at h
  obtain ⟨hidle, hne⟩ := h
  by_cases hstop : s.toneActive ∧ s.toneEndTime ≤ now
  · simp [updateSound, hm, hstop, hne, TONE_QUEUE_SIZE]
  · simp only [hstop, if_false] at hidle
    simp [updateSound, hm, hstop, hne, hidle, TONE_QUEUE_SIZE]

/-- When `updateSound` starts a tone, the pending list loses exactly its
head, which is the event started. -/
theorem pendingList_updateSound_start (now : Nat) (s : SoundState)
    (hh : s.toneHead < 24) (ht : s.toneTail < 24)
    (h : pumpStarts now s = true) :
    pendingList s = s.queue s.toneHead :: pendingList (updateSound now s) := by
  have hm : s.soundMuted = false := by
    rcases hm : s.soundMuted with _ | _
    · rfl
    · simp [pumpStarts, hm] at h
  have hne : s.toneHead ≠ s.toneTail := by
    simp only [pumpStarts, hm, Bool.not_false, Bool.true_and, Bool.and_eq_true,
      Bool.not_eq_true', decide_eq_true_eq] at h
    exact h.2
  obtain ⟨hq, hhd, htl⟩ := updateSound_start_eq now s h
  rw [pendingList_dequeue s hh ht hne]
  congr 1
  symm
  exact pendingList_congr _ _ hq hhd htl

/-- When `updateSound` does not start a tone (unmuted), the pending list is
unchanged. -/
theorem pendingList_updateSound_noStart (now : Nat) (s : SoundState)
    (hm : s.soundMuted = false) (h : pumpStarts now s = false) :
    pendingList (updateSound now s) = pendingList s := by
  obtain ⟨hq, hhd, htl⟩ := updateSound_noStart_eq now s hm h
  exact pendingList_congr _ _ hq hhd htl

/-- An accepted `enqueueTone` call in explicit form. -/
theorem enqueueTone_accepted_eq (s : SoundState) (f d : Nat)
    (h : enqAccepts s = true) :
    enqueueTone s f d =
      { s with
        queue := fun i => if i = s.toneTail then ⟨f, d⟩ else s.queue i,
        toneTail := (s.toneTail + 1) % 24 } := by
  unfold enqAccepts at h
  simp only [Bool.and_eq_true, Bool.not_eq_true', decide_eq_true_eq, TONE_QUEUE_SIZE] at h
  unfold enqueueTone
  simp [h.1, h.2, TONE_QUEUE_SIZE]

/-- `updateSound` never changes the mute flag. -/
theorem updateSound_preserves_muted (now : Nat) (s : SoundState) :
    (updateSound now s).soundMuted = s.soundMuted := by
  rcases hm : s.soundMuted with _ | _
  · by_cases hstop : s.toneActive = true ∧ s.toneEndTime ≤ now
    · by_cases hne : s.toneHead = s.toneTail
      · simp [updateSound, hm, hstop, hne]
      · simp [updateSound, hm, hstop, hne]
    · rcases ha : s.toneActive with _ | _
      · by_cases hne : s.toneHead = s.toneTail
        · simp [updateSound, hm, hstop, ha, hne]
        · simp [updateSound, hm, hstop, ha, hne]
      · have hnow : ¬ s.toneEndTime ≤ now := fun hc => hstop ⟨ha, hc⟩
        simp [updateSound, hm, ha, hnow]
  · simp [updateSound, hm]

/-- Every sound call preserves the trace invariant. -/
theorem soundStep_inv (t : SoundState × List ToneEvent × List ToneEvent)
    (op : SoundOp) (h : SoundInv t) : SoundInv (soundStep t op) := by
  obtain ⟨hm, hh, ht, hacc⟩ := h
  cases op with
  | enq f d =>
    by_cases ha : enqAccepts t.1 = true
    · have he := enqueueTone_accepted_eq t.1 f d ha
      refine ⟨?_, ?_, ?_, ?_⟩
      · simp [soundStep, he, hm]
      · simp [soundStep, he, hh]
      · simp only [soundStep, he]
        exact Nat.mod_lt _ (by omega)
      · simp only [soundStep, ha, if_true]
        rw [pendingList_enqueueTone t.1 f d hh ht ha, hacc, List.append_assoc]
    · have ha' : enqAccepts t.1 = false := by
        rcases hb : enqAccepts t.1 with _ | _
        · rfl
        · exact absurd hb ha
      have he := enqueueTone_rejected t.1 f d ha'
      refine ⟨?_, ?_, ?_, ?_⟩ <;> simp [soundStep, he, hm, hh, ht, ha', hacc]
  | pump now =>
    by_cases hp : pumpStarts now t.1 = true
    · obtain ⟨hq, hhd, htl⟩ := updateSound_start_eq now t.1 hp
      refine ⟨?_, ?_, ?_, ?_⟩
      · simp [soundStep, updateSound_preserves_muted, hm]
      · simp only [soundStep]
        rw [hhd]
        exact Nat.mod_lt _ (by omega)
      · simp only [soundStep]
        rw [htl]
        exact ht
      · simp only [soundStep, hp, if_true]
        rw [hacc, pendingList_updateSound_start now t.1 hh ht hp, List.append_assoc]
        simp
    · have hp' : pumpStarts now t.1 = false := by
        rcases hb : pumpStarts now t.1 with _ | _
        · rfl
        · exact absurd hb hp
      obtain ⟨hq, hhd, htl⟩ := updateSound_noStart_eq now t.1 hm hp'
      refine ⟨?_, ?_, ?_, ?_⟩
      · simp [soundStep, updateSound_preserves_muted, hm]
      · simp only [soundStep]
        rw [hhd]
        exact hh
      · simp only [soundStep]
        rw [htl]
        exact ht
      · simp only [soundStep, hp', Bool.false_eq_true, if_false, List.append_nil]
        rw [hacc, pendingList_updateSound_noStart now t.1 hm hp']

/-- The trace invariant holds along any run from any state satisfying it. -/
theorem foldl_soundStep_inv (ops : List SoundOp)
    (t : SoundState × List ToneEvent × List ToneEvent) (h : SoundInv t) :
    SoundInv (ops.foldl soundStep t) := by
  induction ops generalizing t with
  | nil => exact h
  | cons op rest ih =>
    rw [List.foldl_cons]
    exact ih _ (soundStep_inv t op h)

/-- The boot state satisfies the trace invariant. -/
theorem soundInv_init : SoundInv (initSound, [], []) := by
  refine ⟨rfl, by decide, by decide, ?_⟩
  simp [pendingList, occupancy, initSound, TONE_QUEUE_SIZE]

/-- The invariant holds after any run from boot. -/
theorem runSound_inv (ops : List SoundOp) : SoundInv (runSound ops) :=
  foldl_soundStep_inv ops _ soundInv_init

/-- C3: For every sequence of `enqueueTone` and `updateSound` calls, the tone
queue's occupancy never exceeds `TONE_QUEUE_SIZE - 1 = 23`; and an
`enqueueTone` call made while occupancy is 23 (with the head index inside the
array, as it always is) leaves the state — queue contents and head/tail
indices included — entirely unchanged, returning nothing to the caller. -/
theorem tone_queue_occupancy_bound :
    (∀ ops : List SoundOp, occupancy (runSound ops).1 ≤ TONE_QUEUE_SIZE - 1) ∧
    (∀ (s : SoundState) (f d : Nat), s.toneHead < 24 → occupancy s = 23 →
      enqueueTone s f d = s) := by
  constructor
  · intro ops
    unfold occupancy TONE_QUEUE_SIZE
    have := Nat.mod_lt ((runSound ops).1.toneTail + 24 - (runSound ops).1.toneHead)
      (show 0 < 24 by omega)
    omega
  · intro s f d hh hocc
    unfold occupancy TONE_QUEUE_SIZE at hocc
    have hfull : (s.toneTail + 1) % 24 = s.toneHead := by omega
    unfold enqueueTone
    rcases hm : s.soundMuted with _ | _
    · simp [hm, TONE_QUEUE_SIZE, hfull]
    · simp [hm]

/-- C3 witness: a queue holding 23 events is at the bound, and an extra
enqueue is dropped without any state change; a run from boot stays at or
under the bound. -/
theorem tone_queue_occupancy_bound_witness :
    fullQueueEx.toneHead < 24 ∧ occupancy fullQueueEx = 23 ∧
    enqueueTone fullQueueEx 440 50 = fullQueueEx ∧
    occupancy (runSound opsFifoEx).1 ≤ TONE_QUEUE_SIZE - 1 :=
  ⟨by decide, by decide,
   tone_queue_occupancy_bound.2 fullQueueEx 440 50 (by decide) (by decide),
   tone_queue_occupancy_bound.1 opsFifoEx⟩

/-- C5: Tone playback is strict FIFO: over any sequence of `enqueueTone` and
`updateSound` calls from boot, the list of events `updateSound` starts on the
buzzer is a prefix of the list of events `enqueueTone` accepted, in order;
and `updateSound` starts a tone only when no tone is sounding (either none
was active, or the active one had reached its end time and was stopped in
the same call). -/
theorem tone_fifo_in_order :
    (∀ ops : List SoundOp, (runSound ops).2.2 <+: (runSound ops).2.1) ∧
    (∀ (now : Nat) (s : SoundState), pumpStarts now s = true →
      s.toneActive = false ∨ s.toneEndTime ≤ now) := by
  constructor
  · intro ops
    obtain ⟨-, -, -, hacc⟩ := runSound_inv ops
    exact ⟨pendingList (runSound ops).1, hacc.symm⟩
  · intro now s h
    unfold pumpStarts at h
    simp only [Bool.and_eq_true, Bool.not_eq_true'] at h
    obtain ⟨⟨-, hidle⟩, -⟩ := h
    rcases ha : s.toneActive with _ | _
    · exact Or.inl rfl
    · right
      by_cases hnow : s.toneEndTime ≤ now
      · exact hnow
      · rw [if_neg (fun hc => hnow hc.2), ha] at hidle
        cases hidle

/-- C5 witness: a concrete run whose started list is a prefix of its
accepted list, and a concrete state on which `updateSound` starts a tone
while idle. -/
theorem tone_fifo_in_order_witness :
    ((runSound opsFifoEx).2.2 <+: (runSound opsFifoEx).2.1) ∧
    pumpStarts 0 idleQueuedEx = true ∧
    (idleQueuedEx.toneActive = false ∨ idleQueuedEx.toneEndTime ≤ 0) :=
  ⟨tone_fifo_in_order.1 opsFifoEx, by decide,
   tone_fifo_in_order.2 0 idleQueuedEx (by decide)⟩

/-- C10: After `setSoundMuted(true)`, no tone is active, the queue indices
are equal (both zero, so the queue is empty and its pending list is `[]`),
and the system is muted — every event enqueued before the call is discarded
and can never be started later. -/
theorem setSoundMuted_discards_all (s : SoundState) :
    (setSoundMuted true s).toneActive = false ∧
    (setSoundMuted true s).toneHead = (setSoundMuted true s).toneTail ∧
    pendingList (setSoundMuted true s) = [] ∧
    (setSoundMuted true s).soundMuted = true := by
  refine ⟨rfl, rfl, ?_, rfl⟩
  simp [setSoundMuted, pendingList, occupancy, TONE_QUEUE_SIZE]

/-- C7: For in-bounds logical coordinates, the physical index used by the
frame present path is the serpentine mapping: `y*W + x` on even rows and
`y*W + (W-1-x)` on odd rows. -/
theorem ledIndex_serpentine (x y : Nat) (hx : x < MATRIX_W) (hy : y < MATRIX_H) :
    ledIndex x y =
      if y % 2 = 0 then y * MATRIX_W + x else y * MATRIX_W + (MATRIX_W - 1 - x) := by
  unfold ledIndex MATRIX_W
  unfold MATRIX_W at hx
  unfold MATRIX_H at hy
  by_cases h : y % 2 = 0
  · rw [if_pos h, if_pos h]
    omega
  · rw [if_neg h, if_neg h]
    omega

/-- C7 witness: the mapping at the in-bounds coordinate (3, 5) — an odd
row, mapped right-to-left. -/
theorem ledIndex_serpentine_witness :
    (3 : Nat) < MATRIX_W ∧ (5 : Nat) < MATRIX_H ∧
    ledIndex 3 5 =
      if 5 % 2 = 0 then 5 * MATRIX_W + 3 else 5 * MATRIX_W + (MATRIX_W - 1 - 3) :=
  ⟨by decide, by decide, ledIndex_serpentine 3 5 (by decide) (by decide)⟩

/-- C9: `finishGame` called while the session is not Playing is a complete
no-op: the entire session state — system state, score, high scores, win
flag, message, buttons, tone queue — is returned unchanged. -/
theorem finishGame_noop_when_not_playing (now : Nat) (win : Bool)
    (message : Option String) (s : Sys) (h : s.systemState ≠ SystemState.playing) :
    finishGame now win message s = s := by
  unfold finishGame
  rw [if_pos h]

/-- C9 witness: `finishGame` on a concrete Menu-state session is the
identity. -/
theorem finishGame_noop_when_not_playing_witness :
    sysBase.systemState ≠ SystemState.playing ∧
    finishGame 7 true (some "won") sysBase = sysBase :=
  ⟨by decide, finishGame_noop_when_not_playing 7 true (some "won") sysBase (by decide)⟩

/-- One debounce step within the bounce window changes neither the stable
level nor the edge flags: a sample that is itself a transition restamps
`changedAt` to `now` (so the commit guard fails), and a non-transition
sample within the window fails the guard directly. -/
theorem updateButton_absorbed (now : Nat) (raw : Bool) (b : Button)
    (h : raw = b.last → now - b.changedAt < BTN_DEBOUNCE_MS) :
    (updateButton now raw b).stable = b.stable ∧
    (updateButton now raw b).press = b.press ∧
    (updateButton now raw b).release = b.release := by
  unfold updateButton
  by_cases hr : raw = b.last
  · have hlt := h hr
    have hg : ¬ BTN_DEBOUNCE_MS ≤ now - b.changedAt := by omega
    simp [hr, hg]
  · simp [hr, BTN_DEBOUNCE_MS]

/-- C4: Any sample trace admissible for the bounce condition — every sample
is either a raw transition or lies within the 30 ms debounce window of the
last recorded raw change — leaves the stable level reported by
`isDown`/`isHeld` and both edge flags of the button exactly as they were:
bounces are absorbed, not queued. -/
theorem debounce_absorbs_bounces (b : Button) (samples : List (Nat × Bool))
    (h : bouncy b samples = true) :
    (runButton b samples).stable = b.stable ∧
    (runButton b samples).press = b.press ∧
    (runButton b samples).release = b.release := by
  induction samples generalizing b with
  | nil => exact ⟨rfl, rfl, rfl⟩
  | cons p rest ih =>
    obtain ⟨t, r⟩ := p
    unfold bouncy at h
    rw [Bool.and_eq_true] at h
    obtain ⟨hc, hrest⟩ := h
    have hstep : r = b.last → t - b.changedAt < BTN_DEBOUNCE_MS := by
      intro hr
      rw [Bool.or_eq_true] at hc
      rcases hc with hc | hc
      · rw [bne_iff_ne] at hc
        exact absurd hr hc
      · exact of_decide_eq_true hc
    obtain ⟨h1, h2, h3⟩ := updateButton_absorbed t r b hstep
    obtain ⟨g1, g2, g3⟩ := ih (updateButton t r b) hrest
    have hrun : runButton b ((t, r) :: rest) = runButton (updateButton t r b) rest := rfl
    rw [hrun]
    exact ⟨g1.trans h1, g2.trans h2, g3.trans h3⟩

/-- C4 witness: the spec's sub-window flutter scenario is admissible and
leaves the boot button's stable level and edge flags untouched. -/
theorem debounce_absorbs_bounces_witness :
    bouncy bootButton bounceSamples = true ∧
    (runButton bootButton bounceSamples).stable = bootButton.stable ∧
    (runButton bootButton bounceSamples).press = bootButton.press ∧
    (runButton bootButton bounceSamples).release = bootButton.release :=
  ⟨by decide, debounce_absorbs_bounces bootButton bounceSamples (by decide)⟩

/-- A debounce step with the raw line high never touches the release flag
(only a low commit sets it). -/
theorem updateButton_true_release (now : Nat) (b : Button) :
    (updateButton now true b).release = b.release := by
  unfold updateButton
  by_cases h1 : (true : Bool) ≠ b.last
  · by_cases h2 : BTN_DEBOUNCE_MS ≤ now - now ∧ (true : Bool) ≠ b.stable
    · simp [h1, h2] <;> split <;> rfl
    · simp [h1, h2] <;> split <;> rfl
  · by_cases h2 : BTN_DEBOUNCE_MS ≤ now - b.changedAt ∧ (true : Bool) ≠ b.stable
    · simp [h1, h2] <;> split <;> rfl
    · simp [h1, h2] <;> split <;> rfl

/-- A debounce step with the raw line low never touches the press flag
(only a high commit sets it). -/
theorem updateButton_false_press (now : Nat) (b : Button) :
    (updateButton now false b).press = b.press := by
  unfold updateButton
  by_cases h1 : (false : Bool) ≠ b.last
  · by_cases h2 : BTN_DEBOUNCE_MS ≤ now - now ∧ (false : Bool) ≠ b.stable
    · simp [h1, h2] <;> split <;> rfl
    · simp [h1, h2] <;> split <;> rfl
  · by_cases h2 : BTN_DEBOUNCE_MS ≤ now - b.changedAt ∧ (false : Bool) ≠ b.stable
    · simp [h1, h2] <;> split <;> rfl
    · simp [h1, h2] <;> split <;> rfl

/-- C6 counterexample: four loop iterations in the game-over state (before
its timeout), during which the UP line is pressed, committed, released and
committed again, end with the UP button's press flag AND release flag both
set at the same time — `updateButtons` raises each edge without clearing the
other, and no game-over-state reader consumes UP edges. -/
theorem press_release_both_set :
    c6state.systemState = SystemState.gameOver ∧
    (c6state.buttons B_UP).press = true ∧
    (c6state.buttons B_UP).release = true := by
  decide

/-- C6 amended: within a single `updateButtons` tick the two edge flags are
mutually exclusive — a tick entered with both flags clear ends with at most
one of them set, since one call commits at most one transition per button;
`takePress` reports the press flag and clears it (first-reader "take"
semantics); and `clearButtonEdges` batch-clears both flags.  The flags are
not exclusive across ticks: without a reader or a batch clear, a later
release commit can join a still-pending press flag (see the four-tick
counterexample). -/
theorem edge_flags_amended :
    (∀ (now : Nat) (raw : Bool) (b : Button),
        b.press = false → b.release = false →
        ((updateButton now raw b).press = false ∨
         (updateButton now raw b).release = false)) ∧
    (∀ (i : ButtonId) (s : Sys),
        (takePress i s).1 = (s.buttons i).press ∧
        ((takePress i s).2.buttons i).press = false) ∧
    (∀ (bs : ButtonId → Button) (i : ButtonId),
        (clearButtonEdges bs i).press = false ∧
        (clearButtonEdges bs i).release = false) := by
  refine ⟨?_, ?_, ?_⟩
  · intro now raw b hp hr
    rcases hraw : raw with _ | _
    · left
      rw [updateButton_false_press, hp]
    · right
      rw [updateButton_true_release, hr]
  · intro i s
    unfold takePress
    by_cases hp : (s.buttons i).press
    · simp [hp, Function.update]
    · simp only [Bool.not_eq_true] at hp
      simp [hp]
  · intro bs i
    exact ⟨rfl, rfl⟩

/-- C6 amended witness: a clean-edged button commits at most one flag in one
tick, concretely at a high commit at t = 30. -/
theorem edge_flags_amended_witness :
    bootButton.press = false ∧ bootButton.release = false ∧
    ((updateButton 30 true bootButton).press = false ∨
     (updateButton 30 true bootButton).release = false) :=
  ⟨by decide, by decide,
   edge_flags_amended.1 30 true bootButton (by decide) (by decide)⟩

/-- C8: per-module high scores are monotone and only ever raised by
`finishGame` when the current score strictly exceeds them: every
`finishGame` call leaves every stored high score at least as large as
before; when the current score does not exceed the stored high score the
array is unchanged; when it does (in Playing), the current game's entry
becomes the score; `startGame` resets the score to 0, enters Playing and
leaves the high-score array untouched; `returnToMenu` leaves it untouched. -/
theorem highScore_monotone :
    (∀ (now : Nat) (win : Bool) (msg : Option String) (s : Sys) (g : GameId),
        s.highScore g ≤ (finishGame now win msg s).highScore g) ∧
    (∀ (now : Nat) (win : Bool) (msg : Option String) (s : Sys),
        s.score ≤ s.highScore s.currentGame →
        (finishGame now win msg s).highScore = s.highScore) ∧
    (∀ (now : Nat) (win : Bool) (msg : Option String) (s : Sys),
        s.systemState = SystemState.playing →
        s.highScore s.currentGame < s.score →
        (finishGame now win msg s).highScore s.currentGame = s.score) ∧
    (∀ (id : GameId) (s : Sys),
        (startGame id s).score = 0 ∧
        (startGame id s).highScore = s.highScore ∧
        (startGame id s).systemState = SystemState.playing) ∧
    (∀ s : Sys, (returnToMenu s).highScore = s.highScore) := by
  refine ⟨?_, ?_, ?_, ?_, ?_⟩
  · intro now win msg s g
    unfold finishGame
    by_cases hst : s.systemState ≠ SystemState.playing
    · rw [if_pos hst]
    · rw [if_neg hst]
      by_cases hsc : s.highScore s.currentGame < s.score
      · simp only [if_pos hsc]
        by_cases hg : g = s.currentGame
        · subst hg
          simp [Function.update]
          exact le_of_lt hsc
        · simp [Function.update, hg]
      · simp [if_neg hsc]
  · intro now win msg s hle
    unfold finishGame
    by_cases hst : s.systemState ≠ SystemState.playing
    · rw [if_pos hst]
    · rw [if_neg hst]
      have hsc : ¬ s.highScore s.currentGame < s.score := not_lt.mpr hle
      simp [if_neg hsc]
  · intro now win msg s hst hsc
    unfold finishGame
    rw [if_neg (by simp [hst])]
    simp [if_pos hsc, Function.update]
  · intro id s
    unfold startGame
    exact ⟨rfl, rfl, rfl⟩
  · intro s
    rfl

/-- C8 witness: the spec scenario — a losing round finishing with score 50
against a stored high score of 30 raises the high score to 50. -/
theorem highScore_monotone_witness :
    sysPlayingEx.systemState = SystemState.playing ∧
    sysPlayingEx.highScore sysPlayingEx.currentGame < sysPlayingEx.score ∧
    (finishGame 9 false none sysPlayingEx).highScore sysPlayingEx.currentGame
      = sysPlayingEx.score ∧
    sysPlayingEx.score ≤ sysPlayingEx.highScore sysPlayingEx.currentGame + 20 :=
  ⟨by decide, by decide,
   highScore_monotone.2.2.1 9 false none sysPlayingEx (by decide) (by decide),
   by decide⟩

/-- C2 counterexample: in a paused Playing state with a pending PAUSE press
(the unpause tick), the pause flag is set at tick entry, yet the module's
advance (abstracted by the score-bumping detector `bumpScore`) IS invoked
within that same `snakeUpdate` call — the pause input does more than toggle
the flag on that tick. -/
theorem pause_unpause_tick_advances :
    sysPausedEx.gamePaused = true ∧
    (sysPausedEx.buttons B_PAUSE).press = true ∧
    (snakeUpdate bumpScore 50 sysPausedEx).score = sysPausedEx.score + 1 ∧
    (snakeUpdate bumpScore 50 sysPausedEx).gamePaused = false := by
  decide

/-- C2 amended: the pause gate is evaluated after pause-input processing —
whenever the pause flag is set once the pause press has been taken (and
toggled the flag), the module's advance is not invoked on that tick: the
result does not depend on the advance body at all, and the tick ends paused.
A pause press toggles the flag; with no pause press the gate sees the flag
unchanged.  (On an unpause press the gate sees the flag clear and the
advance runs within that same tick — the counterexample.) -/
theorem pause_blocks_advance_amended :
    (∀ (rest rest' : Nat → Sys → Sys) (now : Nat) (s : Sys),
        pausedAfterInput s = true →
        snakeUpdate rest now s = snakeUpdate rest' now s) ∧
    (∀ (rest : Nat → Sys → Sys) (now : Nat) (s : Sys),
        pausedAfterInput s = true → (snakeUpdate rest now s).gamePaused = true) ∧
    (∀ s : Sys, (s.buttons B_PAUSE).press = true →
        pausedAfterInput s = (!s.gamePaused)) ∧
    (∀ s : Sys, (s.buttons B_PAUSE).press = false →
        pausedAfterInput s = s.gamePaused) := by
  refine ⟨?_, ?_, ?_, ?_⟩
  · intro rest rest' now s h
    unfold snakeUpdate takePress
    by_cases hp : (s.buttons B_PAUSE).press
    · have hg : (!s.gamePaused) = true := by
        unfold pausedAfterInput at h
        rwa [if_pos hp] at h
      simp [hp, hg]
    · have hg : s.gamePaused = true := by
        unfold pausedAfterInput at h
        rwa [if_neg hp] at h
      simp [hp, hg]
  · intro rest now s h
    unfold snakeUpdate takePress
    by_cases hp : (s.buttons B_PAUSE).press
    · have hg : (!s.gamePaused) = true := by
        unfold pausedAfterInput at h
        rwa [if_pos hp] at h
      simp [hp, hg]
    · have hg : s.gamePaused = true := by
        unfold pausedAfterInput at h
        rwa [if_neg hp] at h
      simp [hp, hg]
  · intro s h
    unfold pausedAfterInput
    rw [if_pos h]
  · intro s h
    unfold pausedAfterInput
    rw [if_neg (by simp [h])]

/-- C2 amended witness: in a paused state with no pending input the gate is
set, so the tick's result is independent of the module's advance body; and a
pause press on the paused state toggles the flag. -/
theorem pause_blocks_advance_amended_witness :
    pausedAfterInput sysPausedIdleEx = true ∧
    snakeUpdate bumpScore 5 sysPausedIdleEx =
      snakeUpdate (fun _ t => t) 5 sysPausedIdleEx ∧
    (sysPausedEx.buttons B_PAUSE).press = true ∧
    pausedAfterInput sysPausedEx = (!sysPausedEx.gamePaused) :=
  ⟨by decide,
   pause_blocks_advance_amended.1 bumpScore (fun _ t => t) 5 sysPausedIdleEx (by decide),
   by decide,
   pause_blocks_advance_amended.2.2.1 sysPausedEx (by decide)⟩

/-- `takePress` on a clear press flag reports false and changes nothing. -/
theorem takePress_clear (i : ButtonId) (s : Sys)
    (h : (s.buttons i).press = false) : takePress i s = (false, s) := by
  unfold takePress
  simp [h]

/-- `takePress` on a set press flag reports true and clears exactly that
flag. -/
theorem takePress_set (i : ButtonId) (s : Sys)
    (h : (s.buttons i).press = true) :
    takePress i s =
      (true, { s with
               buttons := Function.update s.buttons i
                 { s.buttons i with press := false } }) := by
  unfold takePress
  simp [h]

/-- The mute-combo step preserves the system state, and a clear PAUSE press
flag stays clear through it. -/
theorem menuMuteComboStep_facts (s : Sys) (h : (s.buttons B_PAUSE).press = false) :
    (menuMuteComboStep s).systemState = s.systemState ∧
    ((menuMuteComboStep s).buttons B_PAUSE).press = false := by
  unfold menuMuteComboStep
  by_cases hc : (isDown s.buttons B_LEFT ∧ isDown s.buttons B_RIGHT) ∧ ¬s.menuMuteComboLatched
  · by_cases hm : ¬(setSoundMuted (!s.sound.soundMuted) s.sound).soundMuted
    · by_cases hd : ¬(isDown s.buttons B_LEFT ∧ isDown s.buttons B_RIGHT)
      · simp [hc, hm, hd, clearButtonEdges]
      · simp [hc, hm, hd, clearButtonEdges]
    · by_cases hd : ¬(isDown s.buttons B_LEFT ∧ isDown s.buttons B_RIGHT)
      · simp [hc, hm, hd, clearButtonEdges]
      · simp [hc, hm, hd, clearButtonEdges]
  · by_cases hd : ¬(isDown s.buttons B_LEFT ∧ isDown s.buttons B_RIGHT)
    · simp [hc, hd, h]
    · have hcombo : isDown s.buttons B_LEFT = true ∧ isDown s.buttons B_RIGHT = true :=
        not_not.mp hd
      have hl : s.menuMuteComboLatched = true := by
        by_contra hl
        exact hc ⟨hcombo, hl⟩
      simp [hcombo.1, hcombo.2, hl, h]

/-- A menu-navigation handler for a non-PAUSE button preserves the system
state and the PAUSE press flag. -/
theorem menuNavOne_facts (j : ButtonId) (delta : Nat) (s : Sys) (hj : j ≠ B_PAUSE) :
    (menuNavOne j delta s).systemState = s.systemState ∧
    ((menuNavOne j delta s).buttons B_PAUSE).press = (s.buttons B_PAUSE).press := by
  unfold menuNavOne
  rcases hp : (s.buttons j).press with _ | _
  · rw [takePress_clear j s hp]
    simp
  · rw [takePress_set j s hp]
    simp [Function.update, Ne.symm hj]

/-- The menu start handler with a clear PAUSE press flag is the identity. -/
theorem menuStartStep_noPress (s : Sys) (h : (s.buttons B_PAUSE).press = false) :
    menuStartStep s = s := by
  unfold menuStartStep
  rw [takePress_clear B_PAUSE s h]
  simp

/-- The whole menu branch leaves the system state unchanged when no PAUSE
press is pending (nothing can start a game). -/
theorem menuStep_systemState (s : Sys) (h : (s.buttons B_PAUSE).press = false) :
    (menuStep s).systemState = s.systemState := by
  obtain ⟨h1, h2⟩ := menuMuteComboStep_facts s h
  obtain ⟨h3, h4⟩ := menuNavOne_facts B_UP (GAME_COUNT - 1) (menuMuteComboStep s)
    (by decide)
  obtain ⟨h5, h6⟩ := menuNavOne_facts B_DOWN 1
    (menuNavOne B_UP (GAME_COUNT - 1) (menuMuteComboStep s)) (by decide)
  unfold menuStep menuNavStep
  rw [menuStartStep_noPress _ (by rw [h6, h4]; exact h2), h5, h3, h1]

/-- A game-over tick past the timeout returns to the menu. -/
theorem gameOverStep_timeout (now : Nat) (s : Sys)
    (h : GAME_OVER_DELAY_MS ≤ now - s.gameOverStartTime) :
    (gameOverStep now s).systemState = SystemState.menu := by
  unfold gameOverStep
  rw [if_pos h]
  rfl

/-- A game-over tick before the timeout with a pending PAUSE press returns
to the menu. -/
theorem gameOverStep_pause (now : Nat) (s : Sys)
    (h : ¬ GAME_OVER_DELAY_MS ≤ now - s.gameOverStartTime)
    (hp : (s.buttons B_PAUSE).press = true) :
    (gameOverStep now s).systemState = SystemState.menu := by
  unfold gameOverStep
  rw [if_neg h, takePress_set B_PAUSE s hp]
  simp [returnToMenu]

/-- A game-over tick before the timeout with a pending SELECT press (and no
PAUSE press) returns to the menu. -/
theorem gameOverStep_select (now : Nat) (s : Sys)
    (h : ¬ GAME_OVER_DELAY_MS ≤ now - s.gameOverStartTime)
    (hp : (s.buttons B_PAUSE).press = false)
    (hsel : (s.buttons B_SELECT).press = true) :
    (gameOverStep now s).systemState = SystemState.menu := by
  unfold gameOverStep
  rw [if_neg h, takePress_clear B_PAUSE s hp]
  simp only [Bool.false_eq_true, if_false]
  rw [takePress_set B_SELECT s hsel]
  simp [returnToMenu]

/-- A game-over tick before the timeout with no pending PAUSE or SELECT
press changes nothing. -/
theorem gameOverStep_idle (now : Nat) (s : Sys)
    (h : ¬ GAME_OVER_DELAY_MS ≤ now - s.gameOverStartTime)
    (hp : (s.buttons B_PAUSE).press = false)
    (hsel : (s.buttons B_SELECT).press = false) :
    gameOverStep now s = s := by
  unfold gameOverStep
  rw [if_neg h, takePress_clear B_PAUSE s hp]
  simp only [Bool.false_eq_true, if_false]
  rw [takePress_clear B_SELECT s hsel]
  simp

/-- On a game-over tick, the session state after `loop()` is: Menu when a
SELECT press is pending after debouncing (the global cancel fires, and the
menu branch it falls into cannot start a game because `returnToMenu` cleared
all edges); otherwise whatever the game-over branch produces. -/
theorem loopTick_systemState_gameOver (ugf : GameId → Nat → Sys → Sys)
    (raws : ButtonId → Bool) (now : Nat) (s : Sys)
    (hgo : s.systemState = SystemState.gameOver) :
    (loopTick ugf raws now s).systemState =
      if (updateButtonsAll raws now s.buttons B_SELECT).press = true then
        SystemState.menu
      else
        (gameOverStep now
          { s with buttons := updateButtonsAll raws now s.buttons }).systemState := by
  simp only [loopTick]
  rcases hsel : (updateButtonsAll raws now s.buttons B_SELECT).press with _ | _
  · rw [takePress_clear B_SELECT _ hsel]
    simp [hsel, hgo]
    split <;> split <;> rfl
  · rw [takePress_set B_SELECT _ hsel]
    simp [hgo, returnToMenu]
    split <;> split <;> exact (menuStep_systemState _ rfl).trans rfl

/-- C1: On a game-over tick, a pending cancel edge (SELECT — the global
cancel — or PAUSE) returns the session to Menu on that very tick, timeout or
not; and with no cancel edge pending, the tick transitions to Menu exactly
when at least `GAME_OVER_DELAY_MS = 2000` ms have elapsed since game over
was entered, and stays in the game-over state otherwise — never earlier.
(This holds for every module implementation `ugf` behind the GameModule
seam, which a game-over tick never invokes.) -/
theorem gameOver_cancel_and_timeout
    (ugf : GameId → Nat → Sys → Sys) (raws : ButtonId → Bool) (now : Nat) (s : Sys)
    (hgo : s.systemState = SystemState.gameOver) :
    (((updateButtonsAll raws now s.buttons B_SELECT).press = true ∨
      (updateButtonsAll raws now s.buttons B_PAUSE).press = true) →
        (loopTick ugf raws now s).systemState = SystemState.menu) ∧
    ((updateButtonsAll raws now s.buttons B_SELECT).press = false →
     (updateButtonsAll raws now s.buttons B_PAUSE).press = false →
        (loopTick ugf raws now s).systemState =
          if GAME_OVER_DELAY_MS ≤ now - s.gameOverStartTime then SystemState.menu
          else SystemState.gameOver) := by
  have hkey := loopTick_systemState_gameOver ugf raws now s hgo
  constructor
  · intro hc
    rcases hsel : (updateButtonsAll raws now s.buttons B_SELECT).press with _ | _
    · have hp : (updateButtonsAll raws now s.buttons B_PAUSE).press = true := by
        rcases hc with h | h
        · rw [hsel] at h
          cases h
        · exact h
      rw [hkey, if_neg (by simp [hsel])]
      by_cases ht : GAME_OVER_DELAY_MS ≤ now - s.gameOverStartTime
      · exact gameOverStep_timeout _ _ ht
      · exact gameOverStep_pause _ _ ht hp
    · rw [hkey, if_pos hsel]
  · intro h1 h2
    rw [hkey, if_neg (by simp [h1])]
    by_cases ht : GAME_OVER_DELAY_MS ≤ now - s.gameOverStartTime
    · rw [if_pos ht]
      exact gameOverStep_timeout _ _ ht
    · rw [if_neg ht]
      rw [gameOverStep_idle now
        { s with buttons := updateButtonsAll raws now s.buttons } ht h2 h1]
      exact hgo

/-- C1 witness: a pending SELECT edge at t = 100 (before the 2000 ms
timeout) returns a concrete game-over session to Menu; with no input, the
tick at exactly t = 2000 after game-over entry returns to Menu per the
timeout formula. -/
theorem gameOver_cancel_and_timeout_witness :
    sysGameOverSelEx.systemState = SystemState.gameOver ∧
    (updateButtonsAll rawsOff 100 sysGameOverSelEx.buttons B_SELECT).press = true ∧
    (loopTick noGame rawsOff 100 sysGameOverSelEx).systemState = SystemState.menu ∧
    (updateButtonsAll rawsOff 2000 sysGameOverEx.buttons B_SELECT).press = false ∧
    (loopTick noGame rawsOff 2000 sysGameOverEx).systemState =
      (if GAME_OVER_DELAY_MS ≤ 2000 - sysGameOverEx.gameOverStartTime then
        SystemState.menu
       else SystemState.gameOver) :=
  ⟨by decide, by decide,
   (gameOver_cancel_and_timeout noGame rawsOff 100 sysGameOverSelEx (by decide)).1
     (Or.inl (by decide)),
   by decide,
   (gameOver_cancel_and_timeout noGame rawsOff 2000 sysGameOverEx (by decide)).2
     (by decide) (by decide)⟩
